import Mathlib

/-!
Verification development for the tower-consul client (src/lib.rs).

The Rust source is shallowly embedded:
* HTTP status codes are natural numbers; the class checks mirror
  http::StatusCode::is_informational / is_success / is_redirection /
  is_client_error / is_server_error (100-199, 200-299, 300-399,
  400-499, 500-599).
* Byte buffers (bytes::Bytes) are lists of naturals.
* Rust strings used for URL construction are lists of characters.
* Fallible code returns Except / Option; the unreachable! branch of the
  source is the dedicated Outcome.panic constructor.
-/

set_option maxHeartbeats 1000000

/-- HTTP methods used by the client (the subset of http::Method it builds). -/
inductive Method where
  | GET
  | PUT
  | DELETE
deriving DecidableEq

/-- The Error enum of src/lib.rs. Payloads are kept where the claims inspect
them (the 4xx/5xx body text); serde_json::Error, http::Error, FromUtf8Error
and the boxed inner error are abstracted to payload-free constructors. -/
inductive Error where
  | notFound
  | consulClient (msg : String)
  | consulServer (msg : String)
  | inner
  | http
  | json
  | stringUtf8
  | spawnError
deriving DecidableEq

/-- The observable result of a client code path: a value, an Error, or a
panic (the source's unreachable! branch). -/
inductive Outcome (R : Type) where
  | ok (value : R)
  | fail (e : Error)
  | panic
deriving DecidableEq

/-- A raw HTTP response as the client sees it: numeric status plus body bytes
(http::Response<Bytes>). -/
structure HttpResponse where
  status : Nat
  body : List Nat
deriving DecidableEq

/-- The Unicode replacement character U+FFFD. -/
def replChar : Char := Char.ofNat 0xFFFD

/-- Is the byte a UTF-8 continuation byte in the closed range [lo, hi]? -/
def contOk (lo hi b : Nat) : Bool := lo ≤ b && b ≤ hi

/-- Fuel-driven UTF-8 decoder with U+FFFD replacement of invalid sequences,
modelling String::from_utf8_lossy from the Rust standard library. Each step
consumes at least one byte, so fuel equal to the length of the input
suffices. -/
def utf8LossyGo : Nat → List Nat → List Char
  | 0, _ => []
  | _, [] => []
  | fuel + 1, b1 :: t1 =>
    if b1 < 0x80 then Char.ofNat b1 :: utf8LossyGo fuel t1
    else if b1 < 0xC2 then replChar :: utf8LossyGo fuel t1
    else if b1 ≤ 0xDF then
      match t1 with
      | [] => [replChar]
      | b2 :: t2 =>
        if contOk 0x80 0xBF b2 then
          Char.ofNat ((b1 - 0xC0) * 0x40 + (b2 - 0x80)) :: utf8LossyGo fuel t2
        else replChar :: utf8LossyGo fuel t1
    else if b1 ≤ 0xEF then
      match t1 with
      | [] => [replChar]
      | b2 :: t2 =>
        if contOk (if b1 = 0xE0 then 0xA0 else 0x80) (if b1 = 0xED then 0x9F else 0xBF) b2 then
          match t2 with
          | [] => [replChar]
          | b3 :: t3 =>
            if contOk 0x80 0xBF b3 then
              Char.ofNat ((b1 - 0xE0) * 0x1000 + (b2 - 0x80) * 0x40 + (b3 - 0x80)) ::
                utf8LossyGo fuel t3
            else replChar :: utf8LossyGo fuel t2
        else replChar :: utf8LossyGo fuel t1
    else if b1 ≤ 0xF4 then
      match t1 with
      | [] => [replChar]
      | b2 :: t2 =>
        if contOk (if b1 = 0xF0 then 0x90 else 0x80) (if b1 = 0xF4 then 0x8F else 0xBF) b2 then
          match t2 with
          | [] => [replChar]
          | b3 :: t3 =>
            if contOk 0x80 0xBF b3 then
              match t3 with
              | [] => [replChar]
              | b4 :: t4 =>
                if contOk 0x80 0xBF b4 then
                  Char.ofNat ((b1 - 0xF0) * 0x40000 + (b2 - 0x80) * 0x1000 +
                      (b3 - 0x80) * 0x40 + (b4 - 0x80)) :: utf8LossyGo fuel t4
                else replChar :: utf8LossyGo fuel t3
            else replChar :: utf8LossyGo fuel t2
        else replChar :: utf8LossyGo fuel t1
    else replChar :: utf8LossyGo fuel t1

/-- String::from_utf8_lossy(body).into_owned() over byte lists. -/
def utf8Lossy (bs : List Nat) : String := String.mk (utf8LossyGo bs.length bs)

/-- Consul::handle_status from src/lib.rs lines 196-214: success, redirection
and informational statuses return the response unchanged; 404 is NotFound;
other client errors carry the lossily decoded body; server errors likewise;
any other status hits unreachable!. -/
def handle_status (resp : HttpResponse) : Outcome HttpResponse :=
  if (200 ≤ resp.status ∧ resp.status < 300) ∨ (300 ≤ resp.status ∧ resp.status < 400) ∨
      (100 ≤ resp.status ∧ resp.status < 200) then
    Outcome.ok resp
  else if resp.status = 404 then Outcome.fail Error.notFound
  else if 400 ≤ resp.status ∧ resp.status < 500 then
    Outcome.fail (Error.consulClient (utf8Lossy resp.body))
  else if 500 ≤ resp.status ∧ resp.status < 600 then
    Outcome.fail (Error.consulServer (utf8Lossy resp.body))
  else Outcome.panic

/-- ConsulFuture::poll from src/lib.rs lines 274-298, with the transport
already resolved to a response. The status analysis is that of
handle_status; on the success path the body is handed to
serde_json::from_slice for the target type R, abstracted here as the
from_slice argument; a decode failure becomes Error::Json. -/
def pollWith {R : Type} (from_slice : List Nat → Option R) (resp : HttpResponse) : Outcome R :=
  if (200 ≤ resp.status ∧ resp.status < 300) ∨ (300 ≤ resp.status ∧ resp.status < 400) ∨
      (100 ≤ resp.status ∧ resp.status < 200) then
    match from_slice resp.body with
    | some v => Outcome.ok v
    | none => Outcome.fail Error.json
  else if resp.status = 404 then Outcome.fail Error.notFound
  else if 400 ≤ resp.status ∧ resp.status < 500 then
    Outcome.fail (Error.consulClient (utf8Lossy resp.body))
  else if 500 ≤ resp.status ∧ resp.status < 600 then
    Outcome.fail (Error.consulServer (utf8Lossy resp.body))
  else Outcome.panic

/-- Characters allowed in a URI path besides letters and digits.
Modelled from the spec: the validity check that the external http crate's
Uri builder (not under src/) applies to the path section, read as the
spec's "characters valid in a URI path" (RFC 3986 pchar plus the slash). -/
def uriPathExtraChars : List Char :=
  ['-', '.', '_', '~', '!', '$', '&', Char.ofNat 39, '(', ')', '*', '+', ',', ';',
   '=', ':', '@', '%', '/']

/-- Is the character valid inside a URI path? -/
def isUriPathChar (c : Char) : Bool := c.isAlphanum || uriPathExtraChars.contains c

/-- Is the character valid inside a URI query? -/
def isUriQueryChar (c : Char) : Bool := isUriPathChar c || c = '?'

/-- Modelled from the spec: validity of the path-and-query string the client
hands to the http crate's Uri builder. The part before the first question
mark is the path, the rest the query. -/
def validPathAndQuery (url : List Char) : Bool :=
  (url.takeWhile (fun c => c ≠ '?')).all isUriPathChar &&
    ((url.dropWhile (fun c => c ≠ '?')).drop 1).all isUriQueryChar

/-- Modelled from the spec: validity of an authority (host:port) string as
checked by the http crate's Uri builder; an authority with a character
outside the allowed set (for example a space) cannot be parsed. -/
def validAuthority (a : List Char) : Bool :=
  !a.isEmpty && a.all (fun c => c.isAlphanum || (['-', '.', '_', '~', ':', '@', '[', ']'] : List Char).contains c)

/-- Modelled from the spec: validity of a scheme string as checked by the
http crate's Uri builder (letter first, then letters, digits, plus, minus
or dot). -/
def validScheme (s : List Char) : Bool :=
  match s with
  | [] => false
  | c :: rest => c.isAlpha && rest.all (fun c => c.isAlphanum || (['+', '-', '.'] : List Char).contains c)

/-- The Consul client state relevant to request building: the configured
scheme and authority strings (src/lib.rs lines 33-40; the Buffer handle is
modelled separately as Mux). -/
structure Consul where
  scheme : List Char
  authority : List Char
deriving DecidableEq

/-- Consul::new (src/lib.rs line 77): stores scheme and authority without
validating them. -/
def Consul.new (scheme authority : List Char) : Consul := ⟨scheme, authority⟩

/-- The request the client hands to the transport: http::Request<Bytes>
restricted to the fields the client sets. -/
structure HttpRequest where
  method : Method
  scheme : List Char
  authority : List Char
  pathAndQuery : List Char
  body : List Nat
deriving DecidableEq

/-- Consul::build (src/lib.rs lines 182-194): compose scheme, authority and
path-and-query into an absolute URI; if any part is invalid the Uri
builder's error is surfaced as Error::Http. -/
def Consul.build (c : Consul) (url : List Char) (method : Method) (body : List Nat) :
    Except Error HttpRequest :=
  if validScheme c.scheme && validAuthority c.authority && validPathAndQuery url then
    Except.ok ⟨method, c.scheme, c.authority, url, body⟩
  else Except.error Error.http

/-- Consul::get (src/lib.rs line 88): GET /v1/kv/\x7bkey\x7d with empty body. -/
def Consul.get (c : Consul) (key : List Char) : Except Error HttpRequest :=
  c.build (("/v1/kv/").data ++ key) Method.GET []

/-- Consul::get_keys (src/lib.rs line 99): GET /v1/kv/\x7bkey\x7d?keys with empty
body. -/
def Consul.get_keys (c : Consul) (key : List Char) : Except Error HttpRequest :=
  c.build (("/v1/kv/").data ++ key ++ ("?keys").data) Method.GET []

/-- Consul::set (src/lib.rs line 110): PUT /v1/kv/\x7bkey\x7d with the value bytes
as body. -/
def Consul.set (c : Consul) (key : List Char) (value : List Nat) : Except Error HttpRequest :=
  c.build (("/v1/kv/").data ++ key) Method.PUT value

/-- Consul::delete (src/lib.rs line 125): DELETE /v1/kv/\x7bkey\x7d with empty
body. -/
def Consul.delete (c : Consul) (key : List Char) : Except Error HttpRequest :=
  c.build (("/v1/kv/").data ++ key) Method.DELETE []

/-- Consul::service_nodes (src/lib.rs line 136): GET
/v1/catalog/service/\x7bservice\x7d with empty body. -/
def Consul.service_nodes (c : Consul) (service : List Char) : Except Error HttpRequest :=
  c.build (("/v1/catalog/service/").data ++ service) Method.GET []

/-- Consul::register (src/lib.rs line 150): PUT /v1/agent/service/register
with the service config bytes as body. -/
def Consul.register (c : Consul) (service : List Nat) : Except Error HttpRequest :=
  c.build (("/v1/agent/service/register").data) Method.PUT service

/-- The path of a built request: the part of path-and-query before the first
question mark. -/
def HttpRequest.path (r : HttpRequest) : List Char := r.pathAndQuery.takeWhile (fun c => c ≠ '?')

/-- A JSON document. Numbers are restricted to integers, which covers every
document the client's typed decoders accept. -/
inductive Json where
  | null
  | bool (b : Bool)
  | num (n : Int)
  | str (s : String)
  | arr (xs : List Json)
  | obj (fields : List (String × Json))

/-- JSON whitespace bytes. -/
def isJsonWs (b : Nat) : Bool := b = 32 || b = 9 || b = 10 || b = 13

/-- Drop leading JSON whitespace. -/
def skipWs (bs : List Nat) : List Nat := bs.dropWhile isJsonWs

/-- Is the byte an ASCII digit? -/
def isDigitByte (b : Nat) : Bool := 48 ≤ b && b ≤ 57

/-- Parse a run of ASCII digits into a natural number. -/
def parseDigits (bs : List Nat) : Option (Nat × List Nat) :=
  let digits := bs.takeWhile isDigitByte
  if digits.isEmpty then none
  else some (digits.foldl (fun acc b => acc * 10 + (b - 48)) 0, bs.dropWhile isDigitByte)

/-- Parse the body of a JSON string after the opening quote: a run of
printable ASCII bytes up to the closing quote. Escapes and non-ASCII bytes
are outside the subset this model supports and make the parse fail. -/
def parseStrBody : List Nat → Option (String × List Nat)
  | [] => none
  | b :: rest =>
    if b = 34 then some ("", rest)
    else if b = 92 || b < 32 || 127 ≤ b then none
    else
      match parseStrBody rest with
      | some (s, r) => some (String.mk (Char.ofNat b :: s.data), r)
      | none => none

mutual

/-- Modelled from the spec: the textual JSON parse performed by the external
serde_json crate (not under src/), fuel-driven, on the integer-and-plain-
string subset of JSON. Parses one document and returns the unconsumed
rest. -/
def parseJ : Nat → List Nat → Option (Json × List Nat)
  | 0, _ => none
  | fuel + 1, bs =>
    match skipWs bs with
    | 110 :: 117 :: 108 :: 108 :: rest => some (Json.null, rest)
    | 116 :: 114 :: 117 :: 101 :: rest => some (Json.bool true, rest)
    | 102 :: 97 :: 108 :: 115 :: 101 :: rest => some (Json.bool false, rest)
    | 34 :: rest =>
      match parseStrBody rest with
      | some (s, r) => some (Json.str s, r)
      | none => none
    | 91 :: rest => parseArr fuel rest
    | 123 :: rest => parseObj fuel rest
    | 45 :: rest =>
      match parseDigits rest with
      | some (n, r) => some (Json.num (-(n : Int)), r)
      | none => none
    | bs2 =>
      match parseDigits bs2 with
      | some (n, r) => some (Json.num (n : Int), r)
      | none => none

/-- Parse the inside of a JSON array, after the opening bracket. -/
def parseArr : Nat → List Nat → Option (Json × List Nat)
  | 0, _ => none
  | fuel + 1, bs =>
    match skipWs bs with
    | 93 :: rest => some (Json.arr [], rest)
    | bs2 =>
      match parseJ fuel bs2 with
      | some (x, r) => parseArrTail fuel [x] r
      | none => none

/-- Parse the remaining elements of a JSON array after the first. The
accumulator holds the elements parsed so far, in reverse. -/
def parseArrTail : Nat → List Json → List Nat → Option (Json × List Nat)
  | 0, _, _ => none
  | fuel + 1, acc, bs =>
    match skipWs bs with
    | 93 :: rest => some (Json.arr acc.reverse, rest)
    | 44 :: rest =>
      match parseJ fuel rest with
      | some (x, r) => parseArrTail fuel (x :: acc) r
      | none => none
    | _ => none

/-- Parse the inside of a JSON object, after the opening brace. -/
def parseObj : Nat → List Nat → Option (Json × List Nat)
  | 0, _ => none
  | fuel + 1, bs =>
    match skipWs bs with
    | 125 :: rest => some (Json.obj [], rest)
    | 34 :: rest =>
      match parseMember fuel rest with
      | some (kv, r) => parseObjTail fuel [kv] r
      | none => none
    | _ => none

/-- Parse one object member after its opening quote: key, colon, value. -/
def parseMember : Nat → List Nat → Option ((String × Json) × List Nat)
  | 0, _ => none
  | fuel + 1, bs =>
    match parseStrBody bs with
    | some (k, r) =>
      match skipWs r with
      | 58 :: r2 =>
        match parseJ fuel r2 with
        | some (v, r3) => some ((k, v), r3)
        | none => none
      | _ => none
    | none => none

/-- Parse the remaining members of a JSON object after the first. -/
def parseObjTail : Nat → List (String × Json) → List Nat → Option (Json × List Nat)
  | 0, _, _ => none
  | fuel + 1, acc, bs =>
    match skipWs bs with
    | 125 :: rest => some (Json.obj acc.reverse, rest)
    | 44 :: rest =>
      match skipWs rest with
      | 34 :: r2 =>
        match parseMember fuel r2 with
        | some (kv, r3) => parseObjTail fuel (kv :: acc) r3
        | none => none
      | _ => none
    | _ => none

end

/-- Parse a whole JSON document from bytes: one value followed only by
whitespace. -/
def parseJsonBytes (bs : List Nat) : Option Json :=
  match parseJ (bs.length + 1) bs with
  | some (j, rest) => if (skipWs rest).isEmpty then some j else none
  | none => none

/-- Look a field up in a decoded JSON object, by name (serde's field
matching). -/
def jLookup (fields : List (String × Json)) (k : String) : Option Json :=
  (fields.find? (fun p => p.1 == k)).map (fun p => p.2)

/-- Decode an i64 from a JSON value (serde rejects non-numbers and numbers
outside the i64 range). -/
def decI64 : Json → Option Int
  | Json.num n => if -(2 ^ 63) ≤ n ∧ n < 2 ^ 63 then some n else none
  | _ => none

/-- Decode a u8 from a JSON value (serde rejects non-numbers and numbers
outside the 0..=255 range). -/
def decU8 : Json → Option Nat
  | Json.num n => if 0 ≤ n ∧ n < 256 then some n.toNat else none
  | _ => none

/-- Decode a String from a JSON value. -/
def decString : Json → Option String
  | Json.str s => some s
  | _ => none

/-- Decode an Option<String> field (serde: a missing field or null is None,
a string is Some). -/
def decOptString : Option Json → Option (Option String)
  | none => some none
  | some Json.null => some none
  | some (Json.str s) => some (some s)
  | _ => none

/-- KVValue from src/lib.rs lines 308-316: the struct the KV endpoints
decode, with i64 indices, String key and value, u8 flags and optional
session. Machine integers are modelled as Int / Nat with the range checks
living in the decoders. -/
structure KVValue where
  create_index : Int
  modify_index : Int
  lock_index : Int
  key : String
  flags : Nat
  value : String
  session : Option String
deriving DecidableEq

/-- Serde serialization of KVValue with rename_all = "PascalCase": the JSON
object with fields CreateIndex, ModifyIndex, LockIndex, Key, Flags, Value,
Session (None serialized as null). -/
def KVValue.toJson (v : KVValue) : Json :=
  Json.obj
    [("CreateIndex", Json.num v.create_index),
     ("ModifyIndex", Json.num v.modify_index),
     ("LockIndex", Json.num v.lock_index),
     ("Key", Json.str v.key),
     ("Flags", Json.num (v.flags : Int)),
     ("Value", Json.str v.value),
     ("Session", match v.session with
       | none => Json.null
       | some s => Json.str s)]

/-- Serde deserialization of KVValue from a JSON value: an object whose
PascalCase fields decode at the declared widths. -/
def KVValue.fromJson : Json → Option KVValue
  | Json.obj fields =>
    (jLookup fields ("CreateIndex")).bind fun jci =>
    (decI64 jci).bind fun ci =>
    (jLookup fields ("ModifyIndex")).bind fun jmi =>
    (decI64 jmi).bind fun mi =>
    (jLookup fields ("LockIndex")).bind fun jli =>
    (decI64 jli).bind fun li =>
    (jLookup fields ("Key")).bind fun jk =>
    (decString jk).bind fun k =>
    (jLookup fields ("Flags")).bind fun jf =>
    (decU8 jf).bind fun fl =>
    (jLookup fields ("Value")).bind fun jv =>
    (decString jv).bind fun vl =>
    (decOptString (jLookup fields ("Session"))).bind fun sess =>
    some ⟨ci, mi, li, k, fl, vl, sess⟩
  | _ => none

/-- Serde deserialization of Vec<KVValue> from a JSON value. -/
def kvListFromJson : Json → Option (List KVValue)
  | Json.arr xs => xs.mapM KVValue.fromJson
  | _ => none

/-- serde_json::from_slice::<Vec<KVValue>> as the get endpoint uses it. -/
def kvFromSlice (bs : List Nat) : Option (List KVValue) :=
  (parseJsonBytes bs).bind kvListFromJson

/-- serde_json::from_slice::<bool> as the set and delete endpoints use it:
the document must be the JSON literal true or false. -/
def boolFromSlice (bs : List Nat) : Option Bool :=
  (parseJsonBytes bs).bind fun j =>
    match j with
    | Json.bool b => some b
    | _ => none

/-- Modelled from the spec: the Request Multiplexer state (spec section 4.1).
The implementation the client delegates to, tower_buffer::Buffer
(src/lib.rs line 78), is not under src/. Calls are identified by their
submission number; queue holds the waiting calls oldest first, inFlight the
calls currently dispatched to the transport, and log the dispatch history
in dispatch order. -/
structure Mux where
  bound : Nat
  nextId : Nat
  queue : List Nat
  inFlight : List Nat
  log : List Nat
deriving DecidableEq

/-- An event at the multiplexer: a caller submits a new call, or a
dispatched call completes. -/
inductive MuxEvent where
  | submit
  | complete (id : Nat)
deriving DecidableEq

/-- The multiplexer of a fresh client with concurrency bound n. -/
def Mux.init (n : Nat) : Mux := ⟨n, 0, [], [], []⟩

/-- Modelled from the spec: one multiplexer transition (spec section 4.1).
A submission is dispatched immediately when a slot is free and nothing
waits, and queued in arrival order otherwise; a completion frees its slot
and dispatches the oldest waiting call, if any. A completion for a call
that is not in flight changes nothing. -/
def Mux.step (s : Mux) : MuxEvent → Mux
  | MuxEvent.submit =>
    if s.inFlight.length < s.bound ∧ s.queue = [] then
      { s with nextId := s.nextId + 1, inFlight := s.inFlight ++ [s.nextId],
               log := s.log ++ [s.nextId] }
    else
      { s with nextId := s.nextId + 1, queue := s.queue ++ [s.nextId] }
  | MuxEvent.complete id =>
    if id ∈ s.inFlight then
      match s.queue with
      | [] => { s with inFlight := s.inFlight.erase id }
      | q :: rest =>
        { s with queue := rest, inFlight := s.inFlight.erase id ++ [q],
                 log := s.log ++ [q] }
    else s

/-- Run the multiplexer over a sequence of events. -/
def Mux.run (s : Mux) : List MuxEvent → Mux
  | [] => s
  | e :: es => (s.step e).run es

/-- The multiplexer invariant: the bound is respected, dispatch order
follows submission order, the waiting queue is in submission order, every
dispatched call was submitted before every waiting one, and all recorded
identifiers precede the next one. -/
structure MuxInv (s : Mux) : Prop where
  flightBound : s.inFlight.length ≤ s.bound
  logSorted : s.log.Pairwise (· < ·)
  queueSorted : s.queue.Pairwise (· < ·)
  logBeforeQueue : ∀ a ∈ s.log, ∀ b ∈ s.queue, a < b
  logLtNext : ∀ a ∈ s.log, a < s.nextId
  queueLtNext : ∀ b ∈ s.queue, b < s.nextId

/-- The UTF-8 bytes of an ASCII string, for writing concrete response
bodies. -/
def strBytes (s : String) : List Nat := s.data.map Char.toNat

/-- A well-formed KV response body whose Flags field holds 300, a value the
remote service can produce but that exceeds the u8 width KVValue declares. -/
def kvBodyFlags300 : String :=
  "[\x7b\"CreateIndex\":10,\"ModifyIndex\":11,\"LockIndex\":0,\"Key\":\"mykey\",\"Flags\":300,\"Value\":\"dmFsdWU=\",\"Session\":null\x7d]"

/-- The same KV response body with Flags field 3, inside the u8 width. -/
def kvBodyFlags3 : String :=
  "[\x7b\"CreateIndex\":10,\"ModifyIndex\":11,\"LockIndex\":0,\"Key\":\"mykey\",\"Flags\":3,\"Value\":\"dmFsdWU=\",\"Session\":null\x7d]"

/-- Claim C1: statuses in the 1xx/2xx/3xx classes succeed and pass the body
through; 404 yields NotFound; any other 4xx yields ClientError with the body
as text; any 5xx yields ServerError with the body as text. -/
theorem claim_c1_status_mapping (resp : HttpResponse) :
    (100 ≤ resp.status → resp.status < 400 → handle_status resp = Outcome.ok resp) ∧
    (resp.status = 404 → handle_status resp = Outcome.fail Error.notFound) ∧
    (400 ≤ resp.status → resp.status < 500 → resp.status ≠ 404 →
      handle_status resp = Outcome.fail (Error.consulClient (utf8Lossy resp.body))) ∧
    (500 ≤ resp.status → resp.status < 600 →
      handle_status resp = Outcome.fail (Error.consulServer (utf8Lossy resp.body))) := by
  unfold handle_status
  refine ⟨?_, ?_, ?_, ?_⟩
  · intro h1 h2
    rw [if_pos (by omega)]
  · intro h
    rw [if_neg (by omega), if_pos h]
  · intro h1 h2 h3
    rw [if_neg (by omega), if_neg h3, if_pos (by omega)]
  · intro h1 h2
    rw [if_neg (by omega), if_neg (by omega), if_neg (by omega), if_pos (by omega)]

/-- Witness for C1 at the boundary statuses named by the claim: 200, 301 and
100 succeed, 404 is NotFound, 400 is ClientError, 500 is ServerError. -/
theorem claim_c1_status_mapping_witness :
    handle_status ⟨200, [104, 105]⟩ = Outcome.ok ⟨200, [104, 105]⟩ ∧
    handle_status ⟨301, []⟩ = Outcome.ok ⟨301, []⟩ ∧
    handle_status ⟨100, []⟩ = Outcome.ok ⟨100, []⟩ ∧
    handle_status ⟨404, []⟩ = Outcome.fail Error.notFound ∧
    handle_status ⟨400, [104, 105]⟩ = Outcome.fail (Error.consulClient ("hi")) ∧
    handle_status ⟨500, [104, 105]⟩ = Outcome.fail (Error.consulServer ("hi")) :=
  ⟨(claim_c1_status_mapping ⟨200, [104, 105]⟩).1 (by decide) (by decide),
   (claim_c1_status_mapping ⟨301, []⟩).1 (by decide) (by decide),
   (claim_c1_status_mapping ⟨100, []⟩).1 (by decide) (by decide),
   (claim_c1_status_mapping ⟨404, []⟩).2.1 rfl,
   by
     have h := (claim_c1_status_mapping ⟨400, [104, 105]⟩).2.2.1 (by decide) (by decide) (by decide)
     rw [h]
     decide,
   by
     have h := (claim_c1_status_mapping ⟨500, [104, 105]⟩).2.2.2 (by decide) (by decide)
     rw [h]
     decide⟩

/-- Claim C7: for every status in one of the classes 1xx-5xx, handle_status
takes one of the four defined branches (success, NotFound, ClientError,
ServerError) and never the panicking unreachable branch. -/
theorem claim_c7_no_panic (resp : HttpResponse) (h1 : 100 ≤ resp.status)
    (h2 : resp.status < 600) :
    ((∃ r, handle_status resp = Outcome.ok r) ∨
      handle_status resp = Outcome.fail Error.notFound ∨
      (∃ m, handle_status resp = Outcome.fail (Error.consulClient m)) ∨
      (∃ m, handle_status resp = Outcome.fail (Error.consulServer m))) ∧
    handle_status resp ≠ Outcome.panic := by
  unfold handle_status
  refine ⟨?_, ?_⟩
  · split_ifs with hA hB hC hD
    · exact Or.inl ⟨resp, rfl⟩
    · exact Or.inr (Or.inl rfl)
    · exact Or.inr (Or.inr (Or.inl ⟨_, rfl⟩))
    · exact Or.inr (Or.inr (Or.inr ⟨_, rfl⟩))
    · omega
  · split_ifs with hA hB hC hD
    · intro h
      exact Outcome.noConfusion h
    · intro h
      exact Outcome.noConfusion h
    · intro h
      exact Outcome.noConfusion h
    · intro h
      exact Outcome.noConfusion h
    · omega

/-- Witness for C7 at status 204 with a nonempty body. -/
theorem claim_c7_no_panic_witness :
    ((∃ r, handle_status ⟨204, [65]⟩ = Outcome.ok r) ∨
      handle_status ⟨204, [65]⟩ = Outcome.fail Error.notFound ∨
      (∃ m, handle_status ⟨204, [65]⟩ = Outcome.fail (Error.consulClient m)) ∨
      (∃ m, handle_status ⟨204, [65]⟩ = Outcome.fail (Error.consulServer m))) ∧
    handle_status ⟨204, [65]⟩ ≠ Outcome.panic :=
  claim_c7_no_panic ⟨204, [65]⟩ (by decide) (by decide)

/-- Counterexample to claim C4: a 400 response whose body is the single
invalid UTF-8 byte 0xFF is reported as ClientError carrying the lossily
decoded text, not as the UTF-8 encoding error the claim requires. -/
theorem claim_c4_counterexample :
    handle_status ⟨400, [255]⟩ = Outcome.fail (Error.consulClient ("�")) ∧
    handle_status ⟨400, [255]⟩ ≠ Outcome.fail Error.stringUtf8 := by
  decide

/-- Claim C4 as amended: error bodies are decoded lossily (invalid UTF-8
sequences become U+FFFD), the status-derived ClientError or ServerError is
still returned, and the UTF-8 encoding error is never produced by status
handling. -/
theorem claim_c4_amended_lossy (resp : HttpResponse) :
    (400 ≤ resp.status → resp.status < 500 → resp.status ≠ 404 →
      handle_status resp = Outcome.fail (Error.consulClient (utf8Lossy resp.body))) ∧
    (500 ≤ resp.status → resp.status < 600 →
      handle_status resp = Outcome.fail (Error.consulServer (utf8Lossy resp.body))) ∧
    handle_status resp ≠ Outcome.fail Error.stringUtf8 := by
  unfold handle_status
  refine ⟨?_, ?_, ?_⟩
  · intro h1 h2 h3
    rw [if_neg (by omega), if_neg h3, if_pos (by omega)]
  · intro h1 h2
    rw [if_neg (by omega), if_neg (by omega), if_neg (by omega), if_pos (by omega)]
  · split_ifs <;> simp

/-- Witness for the amended C4: invalid UTF-8 bodies on 403 and 500. -/
theorem claim_c4_amended_lossy_witness :
    handle_status ⟨403, [255]⟩ = Outcome.fail (Error.consulClient ("�")) ∧
    handle_status ⟨500, [255, 33]⟩ = Outcome.fail (Error.consulServer ("�!")) := by
  refine ⟨?_, ?_⟩
  · have h := (claim_c4_amended_lossy ⟨403, [255]⟩).1 (by decide) (by decide) (by decide)
    rw [h]
    decide
  · have h := (claim_c4_amended_lossy ⟨500, [255, 33]⟩).2.1 (by decide) (by decide)
    rw [h]
    decide

/-- Counterexample to claim C5: a set or delete response with successful
status 200 and body "false" returns the boolean false, not true: the result
depends on the body, contrary to the claim. -/
theorem claim_c5_counterexample :
    pollWith boolFromSlice ⟨200, strBytes ("false")⟩ = Outcome.ok false ∧
    pollWith boolFromSlice ⟨200, strBytes ("false")⟩ ≠ Outcome.ok true := by
  decide

/-- Claim C5 as amended: for every set or delete response with a successful
status (1xx, 2xx or 3xx), the returned boolean is the one decoded from the
JSON body, so the call returns b exactly when the body decodes to b. -/
theorem claim_c5_amended_decoded (resp : HttpResponse) (h1 : 100 ≤ resp.status)
    (h2 : resp.status < 400) (b : Bool) :
    pollWith boolFromSlice resp = Outcome.ok b ↔ boolFromSlice resp.body = some b := by
  unfold pollWith
  rw [if_pos (by omega)]
  rcases hb : boolFromSlice resp.body with _ | b2
  · simp
  · simp

/-- Witness for the amended C5 at status 200 with body "true". -/
theorem claim_c5_amended_decoded_witness :
    pollWith boolFromSlice ⟨200, strBytes ("true")⟩ = Outcome.ok true :=
  (claim_c5_amended_decoded ⟨200, strBytes ("true")⟩ (by decide) (by decide) true).mpr (by decide)

/-- Claim C9: serializing a KVValue to its PascalCase JSON wire format and
deserializing the result yields the original value field for field. The
hypotheses state that the integer fields hold values of their declared Rust
widths (i64 and u8), which every Rust KVValue satisfies. -/
theorem claim_c9_roundtrip (v : KVValue)
    (hci : -(2 ^ 63) ≤ v.create_index ∧ v.create_index < 2 ^ 63)
    (hmi : -(2 ^ 63) ≤ v.modify_index ∧ v.modify_index < 2 ^ 63)
    (hli : -(2 ^ 63) ≤ v.lock_index ∧ v.lock_index < 2 ^ 63)
    (hfl : v.flags < 256) :
    KVValue.fromJson (KVValue.toJson v) = some v := by
  obtain ⟨ci, mi, li, k, fl, vl, sess⟩ := v
  simp only at hci hmi hli hfl
  cases sess with
  | none =>
    simp [KVValue.toJson, KVValue.fromJson, jLookup, List.find?, decI64, decU8, decString,
      decOptString, hci.1, hci.2, hmi.1, hmi.2, hli.1, hli.2, hfl]
    rw [if_pos ⟨by omega, by omega⟩, if_pos ⟨by omega, by omega⟩, if_pos ⟨by omega, by omega⟩]
    rfl
  | some s =>
    simp [KVValue.toJson, KVValue.fromJson, jLookup, List.find?, decI64, decU8, decString,
      decOptString, hci.1, hci.2, hmi.1, hmi.2, hli.1, hli.2, hfl]
    rw [if_pos ⟨by omega, by omega⟩, if_pos ⟨by omega, by omega⟩, if_pos ⟨by omega, by omega⟩]
    rfl

/-- Witness for C9 at a concrete entry with a session. -/
theorem claim_c9_roundtrip_witness :
    KVValue.fromJson (KVValue.toJson ⟨7, 8, 1, ("k"), 42, ("dg=="), some ("sess")⟩) =
      some ⟨7, 8, 1, ("k"), 42, ("dg=="), some ("sess")⟩ :=
  claim_c9_roundtrip ⟨7, 8, 1, ("k"), 42, ("dg=="), some ("sess")⟩
    (by constructor <;> decide) (by constructor <;> decide) (by constructor <;> decide)
    (by decide)

/-- Claim C10: KVValue declares flags at 8-bit width, so a well-formed KV
response whose Flags field holds 300 makes a get call with status 200 fail
with the JSON decode error, while the same body with Flags 3 decodes to the
entry. -/
theorem claim_c10_flags_u8 :
    pollWith kvFromSlice ⟨200, strBytes kvBodyFlags300⟩ = Outcome.fail Error.json ∧
    pollWith kvFromSlice ⟨200, strBytes kvBodyFlags3⟩ =
      Outcome.ok [⟨10, 11, 0, ("mykey"), 3, ("dmFsdWU="), none⟩] := by
  decide

/-- A successful Consul::build returns a request carrying exactly the
method, path-and-query and body it was given. -/
theorem build_ok_spec {c : Consul} {url : List Char} {m : Method} {body : List Nat}
    {req : HttpRequest} (h : c.build url m body = Except.ok req) :
    req.method = m ∧ req.pathAndQuery = url ∧ req.body = body := by
  unfold Consul.build at h
  split_ifs at h
  · injection h with h2
    subst h2
    exact ⟨rfl, rfl, rfl⟩

/-- A successful Consul::build implies its path-and-query argument passed
validation, in particular its path part is made of valid path characters. -/
theorem build_ok_pathvalid {c : Consul} {url : List Char} {m : Method} {body : List Nat}
    {req : HttpRequest} (h : c.build url m body = Except.ok req) :
    (url.takeWhile (fun ch => ch ≠ '?')).all isUriPathChar = true := by
  unfold Consul.build at h
  split_ifs at h with hc
  · simp only [Bool.and_eq_true] at hc
    have hp := hc.2
    unfold validPathAndQuery at hp
    simp only [Bool.and_eq_true] at hp
    exact hp.1

/-- takeWhile over an append whose first part wholly satisfies the
predicate keeps that first part intact. -/
theorem takeWhile_append_all {α : Type} {p : α → Bool} {l1 l2 : List α}
    (h : ∀ a ∈ l1, p a = true) :
    (l1 ++ l2).takeWhile p = l1 ++ l2.takeWhile p := by
  induction l1 with
  | nil => rfl
  | cons a t ih =>
    have ha := h a (List.mem_cons_self a t)
    simp [List.takeWhile_cons, ha, ih (fun x hx => h x (List.mem_cons_of_mem a hx))]

/-- A successful build whose URL starts with a question-mark-free prefix
yields a request whose path extends that prefix and consists of valid URI
path characters. -/
theorem build_path_inv {c : Consul} (pre tl : List Char) {m : Method} {body : List Nat}
    {req : HttpRequest} (h : c.build (pre ++ tl) m body = Except.ok req)
    (hpre : ∀ a ∈ pre, (decide (a ≠ '?')) = true) :
    pre <+: req.path ∧ ∀ ch ∈ req.path, isUriPathChar ch = true := by
  have hspec := build_ok_spec h
  have hv := build_ok_pathvalid h
  have hpath : req.path = pre ++ tl.takeWhile (fun ch => ch ≠ '?') := by
    simp only [HttpRequest.path, hspec.2.1]
    exact takeWhile_append_all hpre
  refine ⟨?_, ?_⟩
  · rw [hpath]
    exact ⟨_, rfl⟩
  · intro ch hch
    simp only [HttpRequest.path, hspec.2.1] at hch
    exact List.all_eq_true.mp hv ch hch

/-- Claim C3: for every input, the six operations build exactly the request
of the spec's table: method, path template and body. -/
theorem claim_c3_request_table (c : Consul) :
    (∀ key req, c.get key = Except.ok req →
      req.method = Method.GET ∧ req.pathAndQuery = ("/v1/kv/").data ++ key ∧ req.body = []) ∧
    (∀ key req, c.get_keys key = Except.ok req →
      req.method = Method.GET ∧
        req.pathAndQuery = ("/v1/kv/").data ++ key ++ ("?keys").data ∧ req.body = []) ∧
    (∀ key value req, c.set key value = Except.ok req →
      req.method = Method.PUT ∧ req.pathAndQuery = ("/v1/kv/").data ++ key ∧ req.body = value) ∧
    (∀ key req, c.delete key = Except.ok req →
      req.method = Method.DELETE ∧ req.pathAndQuery = ("/v1/kv/").data ++ key ∧ req.body = []) ∧
    (∀ service req, c.service_nodes service = Except.ok req →
      req.method = Method.GET ∧
        req.pathAndQuery = ("/v1/catalog/service/").data ++ service ∧ req.body = []) ∧
    (∀ service req, c.register service = Except.ok req →
      req.method = Method.PUT ∧
        req.pathAndQuery = ("/v1/agent/service/register").data ∧ req.body = service) :=
  ⟨fun _ _ h => build_ok_spec h,
   fun _ _ h => build_ok_spec h,
   fun _ _ _ h => build_ok_spec h,
   fun _ _ h => build_ok_spec h,
   fun _ _ h => build_ok_spec h,
   fun _ _ h => build_ok_spec h⟩

/-- Witness for C3: a concrete client and key for which get builds the
GET /v1/kv/mykey request with empty body. -/
theorem claim_c3_request_table_witness :
    (⟨Method.GET, ("http").data, ("localhost:8500").data, ("/v1/kv/mykey").data, []⟩
        : HttpRequest).method = Method.GET ∧
    (⟨Method.GET, ("http").data, ("localhost:8500").data, ("/v1/kv/mykey").data, []⟩
        : HttpRequest).pathAndQuery = ("/v1/kv/").data ++ ("mykey").data ∧
    (⟨Method.GET, ("http").data, ("localhost:8500").data, ("/v1/kv/mykey").data, []⟩
        : HttpRequest).body = [] :=
  (claim_c3_request_table ⟨("http").data, ("localhost:8500").data⟩).1 (("mykey").data) _ rfl

/-- Claim C6: every request the operations successfully build has a path
made only of valid URI path characters and rooted at /v1/. -/
theorem claim_c6_path_rooted (c : Consul) :
    (∀ key req, c.get key = Except.ok req →
      (("/v1/").data <+: req.path ∧ ∀ ch ∈ req.path, isUriPathChar ch = true)) ∧
    (∀ key req, c.get_keys key = Except.ok req →
      (("/v1/").data <+: req.path ∧ ∀ ch ∈ req.path, isUriPathChar ch = true)) ∧
    (∀ key value req, c.set key value = Except.ok req →
      (("/v1/").data <+: req.path ∧ ∀ ch ∈ req.path, isUriPathChar ch = true)) ∧
    (∀ key req, c.delete key = Except.ok req →
      (("/v1/").data <+: req.path ∧ ∀ ch ∈ req.path, isUriPathChar ch = true)) ∧
    (∀ service req, c.service_nodes service = Except.ok req →
      (("/v1/").data <+: req.path ∧ ∀ ch ∈ req.path, isUriPathChar ch = true)) ∧
    (∀ service req, c.register service = Except.ok req →
      (("/v1/").data <+: req.path ∧ ∀ ch ∈ req.path, isUriPathChar ch = true)) := by
  have hkv : ∀ a ∈ ("/v1/kv/").data, (decide (a ≠ '?')) = true := by decide
  refine ⟨?_, ?_, ?_, ?_, ?_, ?_⟩
  · intro key req h
    have hp := build_path_inv (("/v1/kv/").data) key h hkv
    exact ⟨(show ("/v1/").data <+: ("/v1/kv/").data from ⟨("kv/").data, rfl⟩).trans hp.1, hp.2⟩
  · intro key req h
    unfold Consul.get_keys at h
    rw [List.append_assoc] at h
    have hp := build_path_inv (("/v1/kv/").data) (key ++ ("?keys").data) h hkv
    exact ⟨(show ("/v1/").data <+: ("/v1/kv/").data from ⟨("kv/").data, rfl⟩).trans hp.1, hp.2⟩
  · intro key value req h
    have hp := build_path_inv (("/v1/kv/").data) key h hkv
    exact ⟨(show ("/v1/").data <+: ("/v1/kv/").data from ⟨("kv/").data, rfl⟩).trans hp.1, hp.2⟩
  · intro key req h
    have hp := build_path_inv (("/v1/kv/").data) key h hkv
    exact ⟨(show ("/v1/").data <+: ("/v1/kv/").data from ⟨("kv/").data, rfl⟩).trans hp.1, hp.2⟩
  · intro service req h
    have hp := build_path_inv (("/v1/catalog/service/").data) service h (by decide)
    exact ⟨(show ("/v1/").data <+: ("/v1/catalog/service/").data from
      ⟨("catalog/service/").data, rfl⟩).trans hp.1, hp.2⟩
  · intro service req h
    unfold Consul.register at h
    rw [show ("/v1/agent/service/register").data =
      ("/v1/agent/service/register").data ++ ([] : List Char) from (List.append_nil _).symm] at h
    have hp := build_path_inv (("/v1/agent/service/register").data) [] h (by decide)
    exact ⟨(show ("/v1/").data <+: ("/v1/agent/service/register").data from
      ⟨("agent/service/register").data, rfl⟩).trans hp.1, hp.2⟩

/-- Witness for C6: the concrete GET /v1/kv/mykey request is rooted at /v1/
and percent-safe. -/
theorem claim_c6_path_rooted_witness :
    ("/v1/").data <+:
      (⟨Method.GET, ("http").data, ("localhost:8500").data, ("/v1/kv/mykey").data, []⟩
        : HttpRequest).path ∧
    ∀ ch ∈ (⟨Method.GET, ("http").data, ("localhost:8500").data, ("/v1/kv/mykey").data, []⟩
        : HttpRequest).path, isUriPathChar ch = true :=
  (claim_c6_path_rooted ⟨("http").data, ("localhost:8500").data⟩).1 (("mykey").data) _ rfl

/-- Claim C8: with an authority string that cannot be parsed, construction
itself succeeds unvalidated (Consul::new stores the strings as given) and
every operation returns the URI-construction error as an error value
instead of panicking. -/
theorem claim_c8_uri_error (scheme authority : List Char)
    (h : validAuthority authority = false) :
    (∀ key, (Consul.new scheme authority).get key = Except.error Error.http) ∧
    (∀ key, (Consul.new scheme authority).get_keys key = Except.error Error.http) ∧
    (∀ key value, (Consul.new scheme authority).set key value = Except.error Error.http) ∧
    (∀ key, (Consul.new scheme authority).delete key = Except.error Error.http) ∧
    (∀ service, (Consul.new scheme authority).service_nodes service = Except.error Error.http) ∧
    (∀ service, (Consul.new scheme authority).register service = Except.error Error.http) := by
  have hb : ∀ url m body,
      (Consul.new scheme authority).build url m body = Except.error Error.http := by
    intro url m body
    unfold Consul.build
    have hc : ¬((validScheme (Consul.new scheme authority).scheme &&
        (validAuthority (Consul.new scheme authority).authority && validPathAndQuery url))
          = true) := by
      simp [Consul.new, h]
    rw [if_neg (by simpa [Bool.and_assoc] using hc)]
  exact ⟨fun key => hb _ _ _, fun key => hb _ _ _, fun key value => hb _ _ _,
    fun key => hb _ _ _, fun service => hb _ _ _, fun service => hb _ _ _⟩

/-- Witness for C8: scheme http with the unparsable authority "bad host"
makes get fail with the URI error. -/
theorem claim_c8_uri_error_witness :
    (Consul.new (("http").data) (("bad host").data)).get (("key").data) =
      Except.error Error.http :=
  (claim_c8_uri_error (("http").data) (("bad host").data) (by decide)).1 (("key").data)

/-- One multiplexer step preserves the configured bound. -/
theorem mux_step_bound (s : Mux) (e : MuxEvent) : (s.step e).bound = s.bound := by
  cases e with
  | submit =>
    simp only [Mux.step]
    by_cases hc : s.inFlight.length < s.bound ∧ s.queue = []
    · rw [if_pos hc]
    · rw [if_neg hc]
  | complete id =>
    simp only [Mux.step]
    by_cases hmem : id ∈ s.inFlight
    · rw [if_pos hmem]
      rcases hq : s.queue with _ | ⟨q, rest⟩ <;> rfl
    · rw [if_neg hmem]

/-- Running the multiplexer preserves the configured bound. -/
theorem mux_run_bound (s : Mux) (es : List MuxEvent) : (s.run es).bound = s.bound := by
  induction es generalizing s with
  | nil => rfl
  | cons e es ih =>
    show ((s.step e).run es).bound = s.bound
    rw [ih, mux_step_bound]

/-- The multiplexer invariant holds in the initial state. -/
theorem mux_init_inv (n : Nat) : MuxInv (Mux.init n) := by
  refine ⟨?_, ?_, ?_, ?_, ?_, ?_⟩ <;> simp [Mux.init]

/-- One multiplexer step preserves the invariant. -/
theorem mux_step_inv {s : Mux} (hs : MuxInv s) (e : MuxEvent) : MuxInv (s.step e) := by
  cases e with
  | submit =>
    simp only [Mux.step]
    by_cases hc : s.inFlight.length < s.bound ∧ s.queue = []
    · rw [if_pos hc]
      obtain ⟨hlen, hq⟩ := hc
      refine ⟨?_, ?_, hs.queueSorted, ?_, ?_, ?_⟩
      · show (s.inFlight ++ [s.nextId]).length ≤ s.bound
        rw [List.length_append]
        simp only [List.length_singleton]
        omega
      · refine List.pairwise_append.mpr ⟨hs.logSorted, by simp, ?_⟩
        intro a ha b hb
        have hb2 : b = s.nextId := by simpa using hb
        subst hb2
        exact hs.logLtNext a ha
      · intro a ha b hb
        rw [hq] at hb
        exact absurd hb (List.not_mem_nil b)
      · intro a ha
        rcases List.mem_append.mp ha with h1 | h2
        · exact Nat.lt_succ_of_lt (hs.logLtNext a h1)
        · have ha2 : a = s.nextId := by simpa using h2
          subst ha2
          exact Nat.lt_succ_self _
      · intro b hb
        exact Nat.lt_succ_of_lt (hs.queueLtNext b hb)
    · rw [if_neg hc]
      refine ⟨hs.flightBound, hs.logSorted, ?_, ?_, ?_, ?_⟩
      · refine List.pairwise_append.mpr ⟨hs.queueSorted, by simp, ?_⟩
        intro a ha b hb
        have hb2 : b = s.nextId := by simpa using hb
        subst hb2
        exact hs.queueLtNext a ha
      · intro a ha b hb
        rcases List.mem_append.mp hb with h1 | h2
        · exact hs.logBeforeQueue a ha b h1
        · have hb2 : b = s.nextId := by simpa using h2
          subst hb2
          exact hs.logLtNext a ha
      · intro a ha
        exact Nat.lt_succ_of_lt (hs.logLtNext a ha)
      · intro b hb
        rcases List.mem_append.mp hb with h1 | h2
        · exact Nat.lt_succ_of_lt (hs.queueLtNext b h1)
        · have hb2 : b = s.nextId := by simpa using h2
          subst hb2
          exact Nat.lt_succ_self _
  | complete id =>
    simp only [Mux.step]
    by_cases hmem : id ∈ s.inFlight
    · rw [if_pos hmem]
      rcases hq : s.queue with _ | ⟨q, rest⟩
      · refine ⟨?_, hs.logSorted, ?_, ?_, hs.logLtNext, ?_⟩
        · exact le_trans (List.Sublist.length_le (List.erase_sublist id s.inFlight))
            hs.flightBound
        · exact List.Pairwise.nil
        · intro a ha b hb
          exact absurd hb (List.not_mem_nil b)
        · intro b hb
          exact absurd hb (List.not_mem_nil b)
      · have hqmemhead : q ∈ s.queue := by
          rw [hq]
          exact List.mem_cons_self q rest
        have hsq := hs.queueSorted
        rw [hq] at hsq
        refine ⟨?_, ?_, (List.pairwise_cons.mp hsq).2, ?_, ?_, ?_⟩
        · show ((s.inFlight.erase id) ++ [q]).length ≤ s.bound
          have h1 := List.length_erase_of_mem hmem
          have h2 : 0 < s.inFlight.length := List.length_pos.mpr (List.ne_nil_of_mem hmem)
          have h3 := hs.flightBound
          rw [List.length_append, h1]
          simp only [List.length_singleton]
          omega
        · refine List.pairwise_append.mpr ⟨hs.logSorted, by simp, ?_⟩
          intro a ha b hb
          have hb2 : b = q := by simpa using hb
          rw [hb2]
          exact hs.logBeforeQueue a ha q hqmemhead
        · intro a ha b hb
          rcases List.mem_append.mp ha with h1 | h2
          · exact hs.logBeforeQueue a h1 b (by rw [hq]; exact List.mem_cons_of_mem q hb)
          · have ha2 : a = q := by simpa using h2
            rw [ha2]
            exact (List.pairwise_cons.mp hsq).1 b hb
        · intro a ha
          rcases List.mem_append.mp ha with h1 | h2
          · exact hs.logLtNext a h1
          · have ha2 : a = q := by simpa using h2
            rw [ha2]
            exact hs.queueLtNext q hqmemhead
        · intro b hb
          exact hs.queueLtNext b (by rw [hq]; exact List.mem_cons_of_mem q hb)
    · rw [if_neg hmem]
      exact hs

/-- Running the multiplexer preserves the invariant. -/
theorem mux_run_inv {s : Mux} (hs : MuxInv s) (es : List MuxEvent) : MuxInv (s.run es) := by
  induction es generalizing s with
  | nil => exact hs
  | cons e es ih => exact ih (mux_step_inv hs e)

/-- Claim C2: for any bound of at least one, whatever calls are submitted
and however completions interleave, at most bound-many calls are in flight
against the transport at any instant, and calls are dispatched to the
transport in strict submission order. -/
theorem claim_c2_bounded_fifo (n : Nat) (_hn : 1 ≤ n) (es : List MuxEvent) :
    ((Mux.init n).run es).inFlight.length ≤ n ∧
    ((Mux.init n).run es).log.Pairwise (· < ·) := by
  have hinv := mux_run_inv (mux_init_inv n) es
  have hb := mux_run_bound (Mux.init n) es
  refine ⟨?_, hinv.logSorted⟩
  have hfb := hinv.flightBound
  rw [hb] at hfb
  exact hfb

/-- Witness for C2: bound 1 with three submissions and two completions
keeps at most one call in flight and dispatches in submission order. -/
theorem claim_c2_bounded_fifo_witness :
    ((Mux.init 1).run [MuxEvent.submit, MuxEvent.submit, MuxEvent.submit,
        MuxEvent.complete 0, MuxEvent.complete 1]).inFlight.length ≤ 1 ∧
    ((Mux.init 1).run [MuxEvent.submit, MuxEvent.submit, MuxEvent.submit,
        MuxEvent.complete 0, MuxEvent.complete 1]).log.Pairwise (· < ·) :=
  claim_c2_bounded_fifo 1 (by decide) _
